import Mathlib

/-!
Verification of the batch-size reconciliation logic
(`vision/cnns/tensorflow2/batch_config.py`), the checkpoint-restore
selection and the training-step error wrapping
(`vision/cnns/tensorflow1/training/train.py`) of the IPU-examples
repository, via a shallow embedding in Lean.

Modelling conventions:
* Python `//` on integers is `Int.fdiv`, Python `%` is `Int.fmod`
  (both take the sign of the divisor), Python `int()` truncates
  toward zero (`Int.tdiv`).
* The constructor computes `global_batch_size / micro_batch_size /
  num_replicas` with real division and Python's `round` (banker's
  rounding, ties to even).  We model the real-valued quotient exactly
  as the fraction `g / (m * n)` and banker's rounding of that fraction
  in integer arithmetic (`pyRoundFrac`); `pyRoundFrac_eq_pyRound`
  relates it to the floor-based rounding `pyRound` on ℚ.
* `assert` failures and `raise ValueError` are modelled by
  `Except ConfigError`; the `logging.warning` side effect of the
  rounding branch is modelled by a `Bool` returned next to the record.
-/

/-- Truncation toward zero of the exact rational `num / den`:
Python `int()` applied to the quotient. -/
def pyIntFrac (num den : ℤ) : ℤ := Int.tdiv num den

/-- Banker's rounding (round half to even) of the exact rational
`num / den` for `den > 0`, in integer arithmetic: Python `round()`
applied to the quotient.  `f` is the floor of the quotient and `r`
its remainder, so the fractional part is `r / den`. -/
def pyRoundFrac (num den : ℤ) : ℤ :=
  let f : ℤ := Int.fdiv num den
  let r : ℤ := num - den * f
  if 2 * r < den then f
  else if den < 2 * r then f + 1
  else if f % 2 = 0 then f else f + 1

/-- Banker's rounding (round half to even) of a rational, stated with
`Int.floor`: the mathematical reading of Python `round()` on the
real-valued quotient. -/
def pyRound (q : ℚ) : ℤ :=
  let f : ℤ := Int.floor q
  let r : ℚ := q - (f : ℚ)
  if r < 1 / 2 then f
  else if 1 / 2 < r then f + 1
  else if f % 2 = 0 then f else f + 1

/-- Errors raised by `BatchConfig.__post_init__`: failed `assert`
statements and the two explicit `raise ValueError(...)` calls. -/
inductive ConfigError where
  | assertionError : ConfigError
  | valueError : String → ConfigError
deriving DecidableEq, Repr

/-- The resolved fields of the frozen dataclass `BatchConfig`
(`batch_config.py`).  In the Python source
`gradient_accumulation_count` and `global_batch_size` are `Optional`
inputs; after a successful `__post_init__` both are set, so the
resolved record stores plain integers. -/
structure BatchConfig where
  micro_batch_size : ℤ
  num_replicas : ℤ
  gradient_accumulation_count : ℤ
  global_batch_size : ℤ
  num_micro_batches_per_weight_update : ℤ
deriving DecidableEq, Repr

/-- `BatchConfig.__post_init__` (`batch_config.py` lines 18-62): input
validation and resolution of the two mutually exclusive fields.  The
returned `Bool` records whether the `logging.warning` in the rounding
branch was emitted. -/
def mkBatchConfig (micro_batch_size num_replicas : ℤ)
    (gradient_accumulation_count global_batch_size : Option ℤ) :
    Except ConfigError (BatchConfig × Bool) :=
  if micro_batch_size ≤ 0 then .error .assertionError
  else if num_replicas ≤ 0 then .error .assertionError
  else
    match gradient_accumulation_count, global_batch_size with
    | some _, some _ =>
        .error (.valueError "Can not specify both gradient accumulation count and total batch size")
    | none, none =>
        .error (.valueError "Either gradient accumulation count or total batch size must to be specified")
    | some gac, none =>
        if gac ≤ 0 then .error .assertionError
        else
          .ok ({ micro_batch_size := micro_batch_size
                 num_replicas := num_replicas
                 gradient_accumulation_count := gac
                 global_batch_size := micro_batch_size * num_replicas * gac
                 num_micro_batches_per_weight_update := gac * num_replicas }, false)
    | none, some g =>
        if g ≤ 0 then .error .assertionError
        else if Int.fmod g (micro_batch_size * num_replicas) = 0 then
          .ok ({ micro_batch_size := micro_batch_size
                 num_replicas := num_replicas
                 gradient_accumulation_count := pyIntFrac g (micro_batch_size * num_replicas)
                 global_batch_size := g
                 num_micro_batches_per_weight_update :=
                   pyIntFrac g (micro_batch_size * num_replicas) * num_replicas }, false)
        else
          .ok ({ micro_batch_size := micro_batch_size
                 num_replicas := num_replicas
                 gradient_accumulation_count := pyRoundFrac g (micro_batch_size * num_replicas)
                 global_batch_size :=
                   micro_batch_size * num_replicas * pyRoundFrac g (micro_batch_size * num_replicas)
                 num_micro_batches_per_weight_update :=
                   pyRoundFrac g (micro_batch_size * num_replicas) * num_replicas }, true)

/-- `BatchConfig.get_num_micro_batches_per_epoch` (`batch_config.py`
lines 64-65). -/
def BatchConfig.get_num_micro_batches_per_epoch (bc : BatchConfig) (dataset_size : ℤ) : ℤ :=
  Int.fdiv dataset_size (bc.micro_batch_size * bc.num_micro_batches_per_weight_update) *
    bc.num_micro_batches_per_weight_update

/-- `BatchConfig.get_num_discarded_samples` (`batch_config.py` lines
67-70). -/
def BatchConfig.get_num_discarded_samples (bc : BatchConfig)
    (dataset_size num_instances : ℤ) : ℤ :=
  let instance_batch_size := Int.fdiv bc.global_batch_size num_instances
  Int.fmod dataset_size instance_batch_size

/-- `BatchConfig.get_num_padding_samples` (`batch_config.py` lines
72-77). -/
def BatchConfig.get_num_padding_samples (bc : BatchConfig)
    (num_discarded_samples num_instances : ℤ) : ℤ :=
  if num_discarded_samples = 0 then 0
  else
    let instance_batch_size := Int.fdiv bc.global_batch_size num_instances
    instance_batch_size - num_discarded_samples

/-- Helper: an `Except.error` result is not `isOk`. -/
lemma isOk_error {ε α : Type} (e : ε) : (Except.error (α := α) e).isOk = false := rfl

/-- Helper: an `Except.ok` result is `isOk`. -/
lemma isOk_ok {ε α : Type} (a : α) : (Except.ok (ε := ε) a).isOk = true := rfl

/-- Helper: `Int.fmod g d = 0` with `0 ≤ d` means `d` divides `g`. -/
lemma dvd_of_fmod_eq_zero {g d : ℤ} (hd : 0 ≤ d) (h : Int.fmod g d = 0) : d ∣ g :=
  Int.dvd_of_emod_eq_zero (by rwa [Int.fmod_eq_emod _ hd] at h)

/-- Helper: when `d` divides `g`, truncating division recovers the
exact quotient: `d * (g tdiv d) = g`. -/
lemma mul_pyIntFrac_of_dvd {g d : ℤ} (hd : d ≠ 0) (hdvd : d ∣ g) :
    d * pyIntFrac g d = g := by
  obtain ⟨k, rfl⟩ := hdvd
  rw [pyIntFrac, Int.mul_tdiv_cancel_left k hd]

/-- The integer-arithmetic banker's rounding used in the embedding of
`__post_init__` agrees with floor-based banker's rounding of the exact
real-valued quotient. -/
theorem pyRoundFrac_eq_pyRound (num den : ℤ) (hden : 0 < den) :
    pyRoundFrac num den = pyRound ((num : ℚ) / (den : ℚ)) := by
  have hdQ : (0 : ℚ) < (den : ℚ) := by exact_mod_cast hden
  have hcast : ((den.toNat : ℕ) : ℚ) = (den : ℚ) := by
    rw [← Int.cast_natCast, Int.toNat_of_nonneg hden.le]
  have hfloor : Int.floor ((num : ℚ) / (den : ℚ)) = Int.fdiv num den := by
    rw [← hcast, Rat.floor_intCast_div_natCast, Int.toNat_of_nonneg hden.le,
      Int.fdiv_eq_ediv _ hden.le]
  have hfrac : (num : ℚ) / (den : ℚ) - ((Int.fdiv num den : ℤ) : ℚ) =
      ((num - den * Int.fdiv num den : ℤ) : ℚ) / (den : ℚ) := by
    field_simp
  have hlt : ∀ r : ℤ, ((r : ℚ) / (den : ℚ) < 1 / 2 ↔ 2 * r < den) := by
    intro r
    rw [div_lt_div_iff₀ hdQ two_pos]
    constructor <;> intro hx
    · exact_mod_cast (by linarith : (2 : ℚ) * (r : ℚ) < (den : ℚ))
    · have : (2 : ℚ) * (r : ℚ) < (den : ℚ) := by exact_mod_cast hx
      linarith
  have hgt : ∀ r : ℤ, (1 / 2 < (r : ℚ) / (den : ℚ) ↔ den < 2 * r) := by
    intro r
    rw [div_lt_div_iff₀ two_pos hdQ]
    constructor <;> intro hx
    · exact_mod_cast (by linarith : (den : ℚ) < (2 : ℚ) * (r : ℚ))
    · have : (den : ℚ) < (2 : ℚ) * (r : ℚ) := by exact_mod_cast hx
      linarith
  rw [pyRound, pyRoundFrac]
  simp only [hfloor, hfrac, hlt, hgt]

/-- Inversion on a successful construction: the resolved record keeps
the given `micro_batch_size` and `num_replicas`, its
`global_batch_size` equals `m * n * gradient_accumulation_count`, and
`num_micro_batches_per_weight_update` equals
`gradient_accumulation_count * num_replicas`. -/
lemma mkBatchConfig_ok_inv
    (m n : ℤ) (gaco go : Option ℤ) (bc : BatchConfig) (w : Bool)
    (h : mkBatchConfig m n gaco go = .ok (bc, w)) :
    bc.micro_batch_size = m ∧ bc.num_replicas = n ∧
    bc.global_batch_size = m * n * bc.gradient_accumulation_count ∧
    bc.num_micro_batches_per_weight_update =
      bc.gradient_accumulation_count * n := by
  unfold mkBatchConfig at h
  split at h
  · exact absurd h (by simp)
  split at h
  · exact absurd h (by simp)
  rename_i hm hn
  split at h
  · exact absurd h (by simp)
  · exact absurd h (by simp)
  · split at h
    · exact absurd h (by simp)
    injection h with h1
    injection h1 with hbc hw
    subst hbc
    exact ⟨rfl, rfl, rfl, rfl⟩
  · split at h
    · exact absurd h (by simp)
    split at h
    · rename_i g hg hdvd
      injection h with h1
      injection h1 with hbc hw
      subst hbc
      refine ⟨rfl, rfl, ?_, rfl⟩
      show g = m * n * pyIntFrac g (m * n)
      have hmn : (0 : ℤ) < m * n :=
        mul_pos (lt_of_not_le hm) (lt_of_not_le hn)
      rw [mul_pyIntFrac_of_dvd hmn.ne' (dvd_of_fmod_eq_zero hmn.le hdvd)]
    · injection h with h1
      injection h1 with hbc hw
      subst hbc
      exact ⟨rfl, rfl, rfl, rfl⟩

/-- C1: every `BatchConfig` construction that completes without
raising satisfies
`global_batch_size == micro_batch_size * num_replicas * gradient_accumulation_count`. -/
theorem mkBatchConfig_global_batch_size_invariant
    (m n : ℤ) (gaco go : Option ℤ) (bc : BatchConfig) (w : Bool)
    (h : mkBatchConfig m n gaco go = .ok (bc, w)) :
    bc.global_batch_size =
      bc.micro_batch_size * bc.num_replicas * bc.gradient_accumulation_count := by
  obtain ⟨h1, h2, h3, -⟩ := mkBatchConfig_ok_inv m n gaco go bc w h
  rw [h1, h2]
  exact h3

/-- C1 witness: the theorem applied to the concrete construction
`mkBatchConfig 2 3 (some 5) none`. -/
theorem mkBatchConfig_global_batch_size_invariant_witness :
    (BatchConfig.mk 2 3 5 (2 * 3 * 5) (5 * 3)).global_batch_size =
      (BatchConfig.mk 2 3 5 (2 * 3 * 5) (5 * 3)).micro_batch_size *
        (BatchConfig.mk 2 3 5 (2 * 3 * 5) (5 * 3)).num_replicas *
        (BatchConfig.mk 2 3 5 (2 * 3 * 5) (5 * 3)).gradient_accumulation_count :=
  mkBatchConfig_global_batch_size_invariant 2 3 (some 5) none _ false rfl

/-- C3: with `gradient_accumulation_count` supplied and positive
inputs, construction succeeds, `global_batch_size` is the exact
integer product `micro_batch_size * num_replicas *
gradient_accumulation_count`, and no rounding warning is emitted. -/
theorem mkBatchConfig_gradient_accumulation_path
    (m n gac : ℤ) (hm : 0 < m) (hn : 0 < n) (hgac : 0 < gac) :
    mkBatchConfig m n (some gac) none =
      .ok ({ micro_batch_size := m, num_replicas := n,
             gradient_accumulation_count := gac,
             global_batch_size := m * n * gac,
             num_micro_batches_per_weight_update := gac * n }, false) := by
  rw [mkBatchConfig, if_neg (not_le.mpr hm), if_neg (not_le.mpr hn)]
  exact if_neg (not_le.mpr hgac)

/-- C3 witness: the theorem applied at
`micro_batch_size=4, num_replicas=2, gradient_accumulation_count=3`. -/
theorem mkBatchConfig_gradient_accumulation_path_witness :
    mkBatchConfig 4 2 (some 3) none =
      .ok ({ micro_batch_size := 4, num_replicas := 2,
             gradient_accumulation_count := 3,
             global_batch_size := 4 * 2 * 3,
             num_micro_batches_per_weight_update := 3 * 2 }, false) :=
  mkBatchConfig_gradient_accumulation_path 4 2 3 (by decide) (by decide) (by decide)

/-- C2: on the `global_batch_size` path with positive inputs: when
`global_batch_size` is evenly divisible by
`micro_batch_size * num_replicas`, `gradient_accumulation_count`
resolves to the exact quotient, `global_batch_size` is unchanged and
no warning is emitted; otherwise `gradient_accumulation_count` is the
real-valued quotient rounded to the nearest integer (Python banker's
rounding), `global_batch_size` is recomputed from it and the warning
is emitted.  Concretely, `4, 2, global_batch_size=32` resolves to
`gradient_accumulation_count=4` with no warning, and `4, 2,
global_batch_size=33` resolves to `gradient_accumulation_count=4`
with `global_batch_size` recomputed to `32` and the warning emitted. -/
theorem mkBatchConfig_global_batch_size_path
    (m n g : ℤ) (hm : 0 < m) (hn : 0 < n) (hg : 0 < g) :
    (Int.fmod g (m * n) = 0 →
      ∃ gac : ℤ, m * n * gac = g ∧
        mkBatchConfig m n none (some g) =
          .ok ({ micro_batch_size := m, num_replicas := n,
                 gradient_accumulation_count := gac,
                 global_batch_size := g,
                 num_micro_batches_per_weight_update := gac * n }, false)) ∧
    (Int.fmod g (m * n) ≠ 0 →
      ∃ gac : ℤ, gac = pyRound ((g : ℚ) / (m : ℚ) / (n : ℚ)) ∧
        mkBatchConfig m n none (some g) =
          .ok ({ micro_batch_size := m, num_replicas := n,
                 gradient_accumulation_count := gac,
                 global_batch_size := m * n * gac,
                 num_micro_batches_per_weight_update := gac * n }, true)) ∧
    mkBatchConfig 4 2 none (some 32) =
      .ok ({ micro_batch_size := 4, num_replicas := 2,
             gradient_accumulation_count := 4, global_batch_size := 32,
             num_micro_batches_per_weight_update := 8 }, false) ∧
    mkBatchConfig 4 2 none (some 33) =
      .ok ({ micro_batch_size := 4, num_replicas := 2,
             gradient_accumulation_count := 4, global_batch_size := 32,
             num_micro_batches_per_weight_update := 8 }, true) := by
  have hmn : (0 : ℤ) < m * n := mul_pos hm hn
  refine ⟨?_, ?_, rfl, rfl⟩
  · intro hdvd
    refine ⟨pyIntFrac g (m * n),
      mul_pyIntFrac_of_dvd hmn.ne' (dvd_of_fmod_eq_zero hmn.le hdvd), ?_⟩
    rw [mkBatchConfig, if_neg (not_le.mpr hm), if_neg (not_le.mpr hn),
      if_neg (not_le.mpr hg)]
    exact if_pos hdvd
  · intro hdvd
    refine ⟨pyRoundFrac g (m * n), ?_, ?_⟩
    · rw [pyRoundFrac_eq_pyRound g (m * n) hmn, div_div]
      push_cast
      rfl
    · rw [mkBatchConfig, if_neg (not_le.mpr hm), if_neg (not_le.mpr hn),
        if_neg (not_le.mpr hg)]
      exact if_neg hdvd

/-- C2 witness: the theorem applied at `micro_batch_size=4,
num_replicas=2, global_batch_size=32`, extracting the concrete
divisible-case resolution. -/
theorem mkBatchConfig_global_batch_size_path_witness :
    mkBatchConfig 4 2 none (some 32) =
      .ok ({ micro_batch_size := 4, num_replicas := 2,
             gradient_accumulation_count := 4, global_batch_size := 32,
             num_micro_batches_per_weight_update := 8 }, false) :=
  (mkBatchConfig_global_batch_size_path 4 2 32
    (by decide) (by decide) (by decide)).2.2.1

/-- C4: construction is rejected (no resolved configuration is
produced) when both mutually exclusive fields are supplied, when
neither is supplied, or when any supplied value is non-positive. -/
theorem mkBatchConfig_invalid_inputs_rejected :
    (∀ m n a b : ℤ, (mkBatchConfig m n (some a) (some b)).isOk = false) ∧
    (∀ m n : ℤ, (mkBatchConfig m n none none).isOk = false) ∧
    (∀ m n : ℤ, ∀ gaco go : Option ℤ, m ≤ 0 →
      (mkBatchConfig m n gaco go).isOk = false) ∧
    (∀ m n : ℤ, ∀ gaco go : Option ℤ, n ≤ 0 →
      (mkBatchConfig m n gaco go).isOk = false) ∧
    (∀ m n a : ℤ, a ≤ 0 → (mkBatchConfig m n (some a) none).isOk = false) ∧
    (∀ m n g : ℤ, g ≤ 0 → (mkBatchConfig m n none (some g)).isOk = false) := by
  refine ⟨fun m n a b => ?_, fun m n => ?_, fun m n gaco go hm => ?_,
    fun m n gaco go hn => ?_, fun m n a ha => ?_, fun m n g hg => ?_⟩
  · simp [mkBatchConfig, isOk_error, apply_ite Except.isOk]
  · simp [mkBatchConfig, isOk_error, apply_ite Except.isOk]
  · simp [mkBatchConfig, hm, isOk_error, apply_ite Except.isOk]
  · simp [mkBatchConfig, hn, isOk_error, apply_ite Except.isOk]
  · simp [mkBatchConfig, ha, isOk_error, apply_ite Except.isOk]
  · simp [mkBatchConfig, hg, isOk_error, apply_ite Except.isOk]

/-- C4 witness: concrete rejected constructions, one per error class,
obtained by applying the theorem. -/
theorem mkBatchConfig_invalid_inputs_rejected_witness :
    (mkBatchConfig 4 2 (some 3) (some 24)).isOk = false ∧
    (mkBatchConfig 4 2 none none).isOk = false ∧
    (mkBatchConfig (-1) 2 (some 3) none).isOk = false ∧
    (mkBatchConfig 4 0 (some 3) none).isOk = false ∧
    (mkBatchConfig 4 2 (some 0) none).isOk = false ∧
    (mkBatchConfig 4 2 none (some (-8))).isOk = false :=
  ⟨mkBatchConfig_invalid_inputs_rejected.1 4 2 3 24,
   mkBatchConfig_invalid_inputs_rejected.2.1 4 2,
   mkBatchConfig_invalid_inputs_rejected.2.2.1 (-1) 2 (some 3) none (by decide),
   mkBatchConfig_invalid_inputs_rejected.2.2.2.1 4 0 (some 3) none (by decide),
   mkBatchConfig_invalid_inputs_rejected.2.2.2.2.1 4 2 0 (by decide),
   mkBatchConfig_invalid_inputs_rejected.2.2.2.2.2 4 2 (-8) (by decide)⟩

/-- C5: for every successfully constructed `BatchConfig` and every
`dataset_size` and `num_instances` whose per-instance batch size
`global_batch_size // num_instances` is nonzero,
`get_num_discarded_samples` returns
`dataset_size % (global_batch_size // num_instances)`. -/
theorem get_num_discarded_samples_spec
    (m n : ℤ) (gaco go : Option ℤ) (bc : BatchConfig) (w : Bool)
    (hok : mkBatchConfig m n gaco go = .ok (bc, w))
    (dataset_size num_instances : ℤ)
    (hibs : Int.fdiv bc.global_batch_size num_instances ≠ 0) :
    bc.get_num_discarded_samples dataset_size num_instances =
      Int.fmod dataset_size (Int.fdiv bc.global_batch_size num_instances) := rfl

/-- C5 witness: the theorem applied to the configuration resolved from
`mkBatchConfig 4 2 (some 3) none` with `dataset_size=100`,
`num_instances=2`. -/
theorem get_num_discarded_samples_spec_witness :
    (BatchConfig.mk 4 2 3 (4 * 2 * 3) (3 * 2)).get_num_discarded_samples 100 2 =
      Int.fmod 100
        (Int.fdiv (BatchConfig.mk 4 2 3 (4 * 2 * 3) (3 * 2)).global_batch_size 2) :=
  get_num_discarded_samples_spec 4 2 (some 3) none
    (BatchConfig.mk 4 2 3 (4 * 2 * 3) (3 * 2)) false rfl 100 2 (by decide)

/-- C6: for every successfully constructed `BatchConfig`,
`num_micro_batches_per_weight_update` equals
`gradient_accumulation_count * num_replicas`, and
`get_num_micro_batches_per_epoch dataset_size` is
`dataset_size // (micro_batch_size * num_micro_batches_per_weight_update)
 * num_micro_batches_per_weight_update`. -/
theorem get_num_micro_batches_per_epoch_spec
    (m n : ℤ) (gaco go : Option ℤ) (bc : BatchConfig) (w : Bool)
    (hok : mkBatchConfig m n gaco go = .ok (bc, w)) :
    bc.num_micro_batches_per_weight_update =
      bc.gradient_accumulation_count * bc.num_replicas ∧
    ∀ dataset_size : ℤ,
      bc.get_num_micro_batches_per_epoch dataset_size =
        Int.fdiv dataset_size
            (bc.micro_batch_size * bc.num_micro_batches_per_weight_update) *
          bc.num_micro_batches_per_weight_update := by
  obtain ⟨-, h2, -, h4⟩ := mkBatchConfig_ok_inv m n gaco go bc w hok
  exact ⟨by rw [h2]; exact h4, fun dataset_size => rfl⟩

/-- C6 witness: the theorem applied to the configuration resolved from
`mkBatchConfig 4 2 (some 3) none`. -/
theorem get_num_micro_batches_per_epoch_spec_witness :
    (BatchConfig.mk 4 2 3 (4 * 2 * 3) (3 * 2)).num_micro_batches_per_weight_update =
      (BatchConfig.mk 4 2 3 (4 * 2 * 3) (3 * 2)).gradient_accumulation_count *
        (BatchConfig.mk 4 2 3 (4 * 2 * 3) (3 * 2)).num_replicas ∧
    ∀ dataset_size : ℤ,
      (BatchConfig.mk 4 2 3 (4 * 2 * 3) (3 * 2)).get_num_micro_batches_per_epoch dataset_size =
        Int.fdiv dataset_size
            ((BatchConfig.mk 4 2 3 (4 * 2 * 3) (3 * 2)).micro_batch_size *
              (BatchConfig.mk 4 2 3 (4 * 2 * 3) (3 * 2)).num_micro_batches_per_weight_update) *
          (BatchConfig.mk 4 2 3 (4 * 2 * 3) (3 * 2)).num_micro_batches_per_weight_update :=
  get_num_micro_batches_per_epoch_spec 4 2 (some 3) none
    (BatchConfig.mk 4 2 3 (4 * 2 * 3) (3 * 2)) false rfl

/-- C9: with a positive per-instance batch size
`ibs = global_batch_size // num_instances` and a nonnegative dataset
size, the discarded-sample count `d` satisfies `0 ≤ d < ibs`; the
padding count `p` satisfies `d + p = 0` when `d = 0` and `d + p = ibs`
otherwise; and `dataset_size + p` is an exact multiple of `ibs`. -/
theorem discarded_plus_padding_aligned
    (m n : ℤ) (gaco go : Option ℤ) (bc : BatchConfig) (w : Bool)
    (hok : mkBatchConfig m n gaco go = .ok (bc, w))
    (dataset_size num_instances : ℤ) (hds : 0 ≤ dataset_size)
    (hibs : 0 < Int.fdiv bc.global_batch_size num_instances) :
    0 ≤ bc.get_num_discarded_samples dataset_size num_instances ∧
    bc.get_num_discarded_samples dataset_size num_instances <
      Int.fdiv bc.global_batch_size num_instances ∧
    (bc.get_num_discarded_samples dataset_size num_instances = 0 →
      bc.get_num_discarded_samples dataset_size num_instances +
        bc.get_num_padding_samples
          (bc.get_num_discarded_samples dataset_size num_instances)
          num_instances = 0) ∧
    (bc.get_num_discarded_samples dataset_size num_instances ≠ 0 →
      bc.get_num_discarded_samples dataset_size num_instances +
        bc.get_num_padding_samples
          (bc.get_num_discarded_samples dataset_size num_instances)
          num_instances = Int.fdiv bc.global_batch_size num_instances) ∧
    Int.fdiv bc.global_batch_size num_instances ∣
      dataset_size +
        bc.get_num_padding_samples
          (bc.get_num_discarded_samples dataset_size num_instances)
          num_instances := by
  set ibs := Int.fdiv bc.global_batch_size num_instances with hibs_def
  have hd : bc.get_num_discarded_samples dataset_size num_instances =
      dataset_size % ibs := by
    rw [BatchConfig.get_num_discarded_samples, Int.fmod_eq_emod _ hibs.le]
  refine ⟨?_, ?_, ?_, ?_, ?_⟩
  · rw [hd]
    exact Int.emod_nonneg dataset_size hibs.ne'
  · rw [hd]
    exact Int.emod_lt_of_pos dataset_size hibs
  · intro h0
    rw [BatchConfig.get_num_padding_samples, if_pos h0, h0]
    rfl
  · intro h0
    rw [BatchConfig.get_num_padding_samples, if_neg h0]
    ring
  · by_cases h0 : bc.get_num_discarded_samples dataset_size num_instances = 0
    · rw [BatchConfig.get_num_padding_samples, if_pos h0, add_zero]
      exact Int.dvd_of_emod_eq_zero (by rw [← hd]; exact h0)
    · rw [BatchConfig.get_num_padding_samples, if_neg h0, hd]
      have hsum : dataset_size + (ibs - dataset_size % ibs) =
          ibs * (dataset_size / ibs) + ibs := by
        have := Int.emod_add_ediv dataset_size ibs
        linarith
      rw [hsum]
      exact dvd_add (dvd_mul_right ibs _) dvd_rfl

/-- C9 witness: the theorem applied to the configuration resolved from
`mkBatchConfig 4 2 (some 3) none` with `dataset_size=100`,
`num_instances=2` (per-instance batch size `12`, `d=4`, `p=8`). -/
theorem discarded_plus_padding_aligned_witness :
    0 ≤ (BatchConfig.mk 4 2 3 (4 * 2 * 3) (3 * 2)).get_num_discarded_samples 100 2 ∧
    (BatchConfig.mk 4 2 3 (4 * 2 * 3) (3 * 2)).get_num_discarded_samples 100 2 <
      Int.fdiv (BatchConfig.mk 4 2 3 (4 * 2 * 3) (3 * 2)).global_batch_size 2 ∧
    ((BatchConfig.mk 4 2 3 (4 * 2 * 3) (3 * 2)).get_num_discarded_samples 100 2 = 0 →
      (BatchConfig.mk 4 2 3 (4 * 2 * 3) (3 * 2)).get_num_discarded_samples 100 2 +
        (BatchConfig.mk 4 2 3 (4 * 2 * 3) (3 * 2)).get_num_padding_samples
          ((BatchConfig.mk 4 2 3 (4 * 2 * 3) (3 * 2)).get_num_discarded_samples 100 2)
          2 = 0) ∧
    ((BatchConfig.mk 4 2 3 (4 * 2 * 3) (3 * 2)).get_num_discarded_samples 100 2 ≠ 0 →
      (BatchConfig.mk 4 2 3 (4 * 2 * 3) (3 * 2)).get_num_discarded_samples 100 2 +
        (BatchConfig.mk 4 2 3 (4 * 2 * 3) (3 * 2)).get_num_padding_samples
          ((BatchConfig.mk 4 2 3 (4 * 2 * 3) (3 * 2)).get_num_discarded_samples 100 2)
          2 = Int.fdiv (BatchConfig.mk 4 2 3 (4 * 2 * 3) (3 * 2)).global_batch_size 2) ∧
    Int.fdiv (BatchConfig.mk 4 2 3 (4 * 2 * 3) (3 * 2)).global_batch_size 2 ∣
      100 +
        (BatchConfig.mk 4 2 3 (4 * 2 * 3) (3 * 2)).get_num_padding_samples
          ((BatchConfig.mk 4 2 3 (4 * 2 * 3) (3 * 2)).get_num_discarded_samples 100 2)
          2 :=
  discarded_plus_padding_aligned 4 2 (some 3) none
    (BatchConfig.mk 4 2 3 (4 * 2 * 3) (3 * 2)) false rfl 100 2
    (by decide) (by decide)

/-- The maximal leading run of decimal digits of a character list:
what the greedy `\d+` can consume at most. -/
def leadingDigits : List Char → List Char
  | [] => []
  | c :: cs => if c.isDigit then c :: leadingDigits cs else []

/-- Python `int` applied to a string of decimal digits. -/
def digitsToNat (l : List Char) : ℕ :=
  l.foldl (fun a c => 10 * a + (c.toNat - 48)) 0

/-- Does the rest of the pattern `.index` (any character, then the
literal `index`) match right after a digit group of length `j`?
`re.match` needs no characters beyond that, so exactly six more
characters starting at offset `j` are examined. -/
def matchIndexAt (l : List Char) (j : ℕ) : Bool :=
  decide (6 ≤ (l.drop j).length) &&
    decide (((l.drop j).drop 1).take 5 = "index".toList)

/-- Backtracking for the greedy `(\d+)`: try the digit-group length
`j` from the given maximum downwards and keep the longest one for
which `.index` still matches. -/
def tryIndexLen (l : List Char) : ℕ → Option ℕ
  | 0 => none
  | j + 1 => if matchIndexAt l (j + 1) then some (j + 1) else tryIndexLen l j

/-- Match the tail `ckpt-(\d+).index` of the checkpoint regex at
offset `i` of `l`; returns the digit-group length on success. -/
def matchCkptAt (l : List Char) (i : ℕ) : Option ℕ :=
  if (l.drop i).take 5 = "ckpt-".toList then
    tryIndexLen (l.drop (i + 5)) (leadingDigits (l.drop (i + 5))).length
  else none

/-- Backtracking for the greedy leading `.*` of the checkpoint regex:
try the split position from the given maximum downwards, i.e. the
longest prefix consumed by `.*` wins.  Returns the split position and
the digit-group length. -/
def findCkptSplit (l : List Char) : ℕ → Option (ℕ × ℕ)
  | 0 => (matchCkptAt l 0).map fun j => (0, j)
  | i + 1 =>
    match matchCkptAt l (i + 1) with
    | some j => some (i + 1, j)
    | none => findCkptSplit l i

/-- `re.compile(r'(.*ckpt-(\d+)).index').match(s)` as used in
`_train_process` (`train.py` line 700), returning
`(int(match.group(2)), match.group(1))`: the embedded global step and
the checkpoint path prefix. -/
def pyMatchCkpt (s : String) : Option (ℕ × String) :=
  let l := s.toList
  (findCkptSplit l l.length).map fun ij =>
    (digitsToNat ((l.drop (ij.1 + 5)).take ij.2),
     String.mk (l.take (ij.1 + 5 + ij.2)))

/-- The `tuples` list of `_train_process` (`train.py` lines 701-704):
each directory entry matching the checkpoint regex becomes
`(global step, logs_path joined with group(1))`. -/
def ckptTuples (logs_path : String) (files : List String) : List (ℕ × String) :=
  files.filterMap fun f =>
    (pyMatchCkpt f).map fun sp => (sp.1, logs_path ++ "/" ++ sp.2)

/-- Stable insertion step: a new element goes after every element
with a strictly smaller key and before every element with an equal or
larger key that was later in the original order. -/
def insertSorted (x : ℕ × String) : List (ℕ × String) → List (ℕ × String)
  | [] => [x]
  | y :: ys => if y.1 < x.1 then y :: insertSorted x ys else x :: y :: ys

/-- Python `sorted(tuples, key=lambda x: x[0])` (`train.py` line 705):
a stable sort by the first component.  Python's `sorted` is stable and
the output of a stable sort by a given key is unique, so this
structurally recursive stable insertion sort computes the same list. -/
def pySorted : List (ℕ × String) → List (ℕ × String)
  | [] => []
  | x :: xs => insertSorted x (pySorted xs)

/-- Lines 705-711 of `train.py`: sort the matched tuples by global
step and take the last one; its first component becomes the restored
iteration counter `i` and its second the checkpoint path passed to
`saver.restore`.  `none` models the `IndexError` of `filenames[-1]`
on an empty list. -/
def latestCheckpoint (logs_path : String) (files : List String) :
    Option (ℕ × String) :=
  (pySorted (ckptTuples logs_path files)).getLast?

/-- Helper: membership in an insertion step. -/
lemma mem_insertSorted (x y : ℕ × String) :
    ∀ l : List (ℕ × String), (y ∈ insertSorted x l ↔ y = x ∨ y ∈ l) := by
  intro l
  induction l with
  | nil => simp [insertSorted]
  | cons a t ih =>
    rw [insertSorted]
    split
    · simp only [List.mem_cons, ih]
      tauto
    · simp only [List.mem_cons]

/-- Helper: `pySorted` permutes membership. -/
lemma mem_pySorted (y : ℕ × String) :
    ∀ l : List (ℕ × String), (y ∈ pySorted l ↔ y ∈ l) := by
  intro l
  induction l with
  | nil => exact Iff.rfl
  | cons a t ih =>
    rw [pySorted, mem_insertSorted]
    simp [ih]

/-- Helper: inserting into a key-sorted list keeps it key-sorted. -/
lemma pairwise_insertSorted (x : ℕ × String) :
    ∀ l : List (ℕ × String),
      List.Pairwise (fun a b : ℕ × String => a.1 ≤ b.1) l →
      List.Pairwise (fun a b : ℕ × String => a.1 ≤ b.1) (insertSorted x l) := by
  intro l
  induction l with
  | nil => intro _; simp [insertSorted]
  | cons a t ih =>
    intro hp
    obtain ⟨ha, ht⟩ := List.pairwise_cons.mp hp
    rw [insertSorted]
    split
    · rename_i hax
      refine List.pairwise_cons.mpr ⟨?_, ih ht⟩
      intro z hz
      rcases (mem_insertSorted x z t).mp hz with rfl | hzt
      · exact le_of_lt hax
      · exact ha z hzt
    · rename_i hax
      refine List.pairwise_cons.mpr ⟨?_, hp⟩
      intro z hz
      rcases List.mem_cons.mp hz with rfl | hzt
      · exact not_lt.mp hax
      · exact le_trans (not_lt.mp hax) (ha z hzt)

/-- Helper: `pySorted` output is key-sorted. -/
lemma pairwise_pySorted :
    ∀ l : List (ℕ × String),
      List.Pairwise (fun a b : ℕ × String => a.1 ≤ b.1) (pySorted l)
  | [] => List.Pairwise.nil
  | x :: xs => pairwise_insertSorted x (pySorted xs) (pairwise_pySorted xs)

/-- Helper: the last element of a list is a member. -/
lemma mem_of_getLast_eq_some {α : Type} :
    ∀ {l : List α} {x : α}, l.getLast? = some x → x ∈ l := by
  intro l
  induction l with
  | nil => intro x h; exact absurd h (by simp)
  | cons a t ih =>
    intro x h
    cases t with
    | nil =>
      simp only [List.getLast?_singleton, Option.some.injEq] at h
      simp [h]
    | cons b t2 =>
      rw [List.getLast?_cons_cons] at h
      exact List.mem_cons_of_mem a (ih h)

/-- Helper: in a `Pairwise R` list, every element is the last element
or is `R`-related to it. -/
lemma pairwise_rel_getLast {α : Type} {R : α → α → Prop} :
    ∀ {l : List α} {x : α}, List.Pairwise R l → l.getLast? = some x →
      ∀ y ∈ l, y = x ∨ R y x := by
  intro l
  induction l with
  | nil => intro x _ h; exact absurd h (by simp)
  | cons a t ih =>
    intro x hp hl y hy
    cases t with
    | nil =>
      simp only [List.getLast?_singleton, Option.some.injEq] at hl
      simp only [List.mem_singleton] at hy
      left
      rw [hy, hl]
    | cons b t2 =>
      rw [List.getLast?_cons_cons] at hl
      rcases List.mem_cons.mp hy with rfl | hyt
      · right
        exact (List.pairwise_cons.mp hp).1 x (mem_of_getLast_eq_some hl)
      · exact ih (List.pairwise_cons.mp hp).2 hl y hyt

/-- C7: when restoring, the checkpoint chosen by the scan of the log
directory is one of the regex matches (step embedded in the file
name, path joined under the log directory) and carries the largest
global step among all matches; the restored iteration counter is that
step.  The third conjunct checks the `.*ckpt-(\d+).index` file-name
convention on a typical checkpoint index file. -/
theorem latestCheckpoint_restores_max_step
    (logs_path : String) (files : List String) (step : ℕ) (path : String)
    (h : latestCheckpoint logs_path files = some (step, path)) :
    (step, path) ∈ ckptTuples logs_path files ∧
    (∀ p ∈ ckptTuples logs_path files, p.1 ≤ step) ∧
    pyMatchCkpt "model.ckpt-1000.index" = some (1000, "model.ckpt-1000") := by
  unfold latestCheckpoint at h
  have hsorted := pairwise_pySorted (ckptTuples logs_path files)
  have hmem : (step, path) ∈ pySorted (ckptTuples logs_path files) :=
    mem_of_getLast_eq_some h
  refine ⟨(mem_pySorted _ _).mp hmem, ?_, rfl⟩
  intro p hp
  have hp2 : p ∈ pySorted (ckptTuples logs_path files) :=
    (mem_pySorted p _).mpr hp
  rcases pairwise_rel_getLast hsorted h p hp2 with rfl | hle
  · exact le_refl _
  · exact hle

/-- C7 witness: the theorem applied to a concrete directory listing;
`model.ckpt-12.index` carries the largest step, so the restore picks
step `12` and path `logs/model.ckpt-12`. -/
theorem latestCheckpoint_restores_max_step_witness :
    (12, "logs/model.ckpt-12") ∈
      ckptTuples "logs" ["model.ckpt-5.index", "model.ckpt-12.index",
        "checkpoint", "model.ckpt-5.data-00000"] ∧
    (∀ p ∈ ckptTuples "logs" ["model.ckpt-5.index", "model.ckpt-12.index",
        "checkpoint", "model.ckpt-5.data-00000"], p.1 ≤ 12) ∧
    pyMatchCkpt "model.ckpt-1000.index" = some (1000, "model.ckpt-1000") :=
  latestCheckpoint_restores_max_step "logs"
    ["model.ckpt-5.index", "model.ckpt-12.index",
      "checkpoint", "model.ckpt-5.data-00000"] 12 "logs/model.ckpt-12" rfl

/-- The fields of `tf.errors.OpError` used by the exception handler of
the training loop (`train.py` lines 828-830). -/
structure OpError where
  node_def : String
  op : String
  message : String
deriving DecidableEq, Repr

/-- The exception re-raised by the handler:
`tf.errors.ResourceExhaustedError(e.node_def, e.op, e.message)`. -/
inductive TrainStepError where
  | resourceExhausted (node_def : String) (op : String) (message : String) :
      TrainStepError
deriving DecidableEq, Repr

/-- The `try/except tf.errors.OpError` wrapper around
`training_step(...)` in `_train_process` (`train.py` lines 824-830):
a raising step is re-raised once as a `ResourceExhaustedError` built
from the original error's `node_def`, `op` and `message`; a
successful step result passes through unchanged; the step is invoked
exactly once, so there is no retry or recovery. -/
def guardTrainingStep {α : Type} (step : Except OpError α) :
    Except TrainStepError α :=
  match step with
  | .ok r => .ok r
  | .error e => .error (.resourceExhausted e.node_def e.op e.message)

/-- C8: a training step raising an accelerator runtime `OpError` is
re-raised as a `ResourceExhaustedError` carrying the original error's
`node_def`, `op` and `message`, while a successful step passes
through; the wrapper yields an error exactly when the step raised, so
no retry or recovery happens. -/
theorem guardTrainingStep_spec :
    (∀ (α : Type) (e : OpError),
      guardTrainingStep (α := α) (.error e) =
        .error (.resourceExhausted e.node_def e.op e.message)) ∧
    (∀ (α : Type) (r : α), guardTrainingStep (.ok r) = .ok r) ∧
    (∀ (α : Type) (step : Except OpError α),
      (guardTrainingStep step).isOk = step.isOk) :=
  ⟨fun _ _ => rfl, fun _ _ => rfl, fun α step => by cases step <;> rfl⟩

/-- C10: on the `global_batch_size` path, positive inputs can resolve
to non-positive fields without any error: `micro_batch_size=4,
num_replicas=2, global_batch_size=3` succeeds (with the rounding
warning) and resolves `gradient_accumulation_count=0` and a recomputed
`global_batch_size=0`. -/
theorem mkBatchConfig_success_not_positive :
    mkBatchConfig 4 2 none (some 3) =
      .ok ({ micro_batch_size := 4, num_replicas := 2,
             gradient_accumulation_count := 0, global_batch_size := 0,
             num_micro_batches_per_weight_update := 0 }, true) ∧
    ∃ bc : BatchConfig, ∃ w : Bool,
      mkBatchConfig 4 2 none (some 3) = .ok (bc, w) ∧
        ¬ 0 < bc.gradient_accumulation_count ∧ ¬ 0 < bc.global_batch_size :=
  ⟨rfl, _, _, rfl, by decide, by decide⟩
